import Mathlib

/-!
Shallow embedding of the minicharts query-builder module of the repository
(src/src/internal-packages/crud/lib/component/document-actions.jsx, second
module in the file: `_getComparableValue`, `handleDistinctEvent`,
`handleRangeEvent`, `handleQueryBuilderEvent`).

Values flowing through the module are BSON leaf values carried by chart
data points.  JavaScript numbers are modelled as integers (the module
only adds, compares and tests equality of them, and every claim is about
integer-valued data, for which double arithmetic is exact at these
magnitudes).  A Date is modelled by its timestamp, an
ObjectID by an identity tag (JavaScript compares ObjectID objects with
reference equality) together with the timestamp that `getTimestamp()`
returns.
-/

namespace Minicharts

/-- A BSON leaf value as seen by the module: a number, a string, a
boolean, a Date (held as its millisecond timestamp) or an ObjectID (held
as an identity tag plus the timestamp embedded in its first four bytes). -/
inductive BsonValue where
  | num (x : Int)
  | str (s : String)
  | bool (b : Bool)
  | date (t : Int)
  | objectId (oid : Nat) (ts : Int)
deriving DecidableEq, Repr

/-- One chart data point `d`: its label, its underlying value, and the
bin width `d.dx` (0 for unbinned elements, positive for histogram bins). -/
structure ChartElem where
  label : String
  value : BsonValue
  dx : Int
deriving DecidableEq, Repr

/-- The event payload handed to the handlers (see the doc comment of
`handleQueryBuilderEvent` in the source): the clicked data point `d`, the
identity of the clicked DOM element (`self`, modelled as a tag, since the
source only ever compares it with reference equality), whether the
modifier key was held (`evt[MODIFIERKEY]`), and the data bound to all
clickable elements of the chart (`all`). -/
structure EventData where
  d : ChartElem
  self : Nat
  shift : Bool
  all : List ChartElem
deriving DecidableEq, Repr

/-- Source line 123: `_getComparableValue` returns `d.value.getTimestamp()`
when the value is an ObjectID, and the value itself otherwise. -/
def getComparableValue (d : ChartElem) : BsonValue :=
  match d.value with
  | .objectId _ ts => .date ts
  | v => v

/-- JavaScript numeric coercion as applied to comparable values: the
relational operators in the classification pass coerce Dates to their
timestamp, and the lodash min and max helpers apply a unary plus to the
iteratee result.  Numbers and Dates map to their numeric value; a boolean
coerces to 1 or 0.  String values never reach a numeric comparison in the
module (the dispatcher routes string charts to the distinct handler); we
map them to 0. -/
def jsNum : BsonValue → Int
  | .num x => x
  | .str _ => 0
  | .bool b => if b then 1 else 0
  | .date t => t
  | .objectId _ ts => ts

/-- Source lines 219 and 242: `upper += last.d.dx`.  The statement only
runs when the model type is Number, where the raw value is numeric, so
the JavaScript `+=` is numeric addition. -/
def addDx : BsonValue → Int → BsonValue
  | .num x, w => .num (x + w)
  | v, _ => v

/-- The comparable value of a stored event entry, as a number (the only
way the module ever consumes it). -/
def evComparable (e : EventData) : Int :=
  jsNum (getComparableValue e.d)

/-- Lodash 3 `_.min(array, iteratee)` for a non-empty array `x :: xs`:
scan left to right, replacing the current result only on a strictly
smaller key, so the first minimal element wins ties. -/
def lodashMinBy (f : EventData → Int) (x : EventData) (xs : List EventData) : EventData :=
  xs.foldl (fun acc y => if f y < f acc then y else acc) x

/-- Lodash 3 `_.max(array, iteratee)` for a non-empty array `x :: xs`:
the first maximal element wins ties. -/
def lodashMaxBy (f : EventData → Int) (x : EventData) (xs : List EventData) : EventData :=
  xs.foldl (fun acc y => if f acc < f y then y else acc) x

/-- The visual classification of one element: whether its class list now
holds `selected`, and whether it holds `unselected` (dimmed). -/
structure ClassFlags where
  selected : Bool
  unselected : Bool
deriving DecidableEq, Repr

/-- The predicate shapes the module emits: `LeafValue` (exact value),
`ListOperator` with `$in` (value set), and `Range` (bounded range with an
upper-inclusivity flag; the lower bound is always inclusive). -/
inductive Predicate where
  | exactValue (v : BsonValue)
  | valueSet (vs : List BsonValue)
  | boundedRange (lower upper : BsonValue) (upperInclusive : Bool)
deriving DecidableEq, Repr

/-- What a handler does to `refineValue`: set it to a new predicate, or
clear it (`this.unset`). -/
inductive RefineAction where
  | set (p : Predicate)
  | unset
deriving DecidableEq, Repr

/-- The labels of the selected entries,
`_.pluck(selectedValues, 'd.label')`. -/
def distinctLabels (sv : List EventData) : List String :=
  sv.map (fun e => e.d.label)

/-- Source lines 133-143: the `update selectedValues` block of
`handleDistinctEvent`.  Without the modifier, reclicking the sole
selected element (compared by DOM identity, `self`) clears the selection
and any other click replaces it with the clicked element alone.  With
the modifier, a label already present in
`_.pluck(selectedValues, 'd.label')` is removed everywhere
(`_.remove` by label equality) and a new label is appended. -/
def distinctToggle (sv : List EventData) (data : EventData) : List EventData :=
  if !data.shift then
    match sv with
    | [e] => if e.self = data.self then [] else [data]
    | _ => [data]
  else if data.d.label ∈ distinctLabels sv then
    sv.filter (fun e => e.d.label != data.d.label)
  else
    sv ++ [data]

/-- Source lines 160-176: the `build new refineValue` block of
`handleDistinctEvent`.  Empty selection unsets the predicate, a single
entry emits an exact value, more entries emit the list of their values. -/
def distinctRefine (sv : List EventData) : RefineAction :=
  match sv with
  | [] => RefineAction.unset
  | [e] => RefineAction.set (.exactValue e.d.value)
  | _ => RefineAction.set (.valueSet (sv.map (fun e => e.d.value)))

/-- Source lines 131-177, `handleDistinctEvent`, restricted to the
selection update and the predicate emission (the visual pass touches no
state the claims mention).  `sv` is `this.selectedValues`; in distinct
mode it is a plain dense array.  Returns the new selection and the
refinement action. -/
def handleDistinctEvent (sv : List EventData) (data : EventData) :
    List EventData × RefineAction :=
  (distinctToggle sv data, distinctRefine (distinctToggle sv data))

/-- Range-mode selection state: `this.selectedValues` as range mode uses
it, through indices 0 and 1 only.  A JavaScript array of length at most
two with a possible hole at index 0 (created by `selectedValues[1] = data`
on an empty array) is represented by its two slots; a hole or an absent
index is `none`. -/
structure RangeState where
  slot0 : Option EventData
  slot1 : Option EventData
deriving DecidableEq, Repr

/-- Source lines 186-192: the selection update of `handleRangeEvent`.
With the modifier held, `selectedValues[1] = data` overwrites slot 1 and
leaves slot 0 alone (a hole when the array was empty).  Without it, a
click on the element whose label matches the first bound clears the
selection, and any other click replaces the selection with `[data]`. -/
def rangeToggle (st : RangeState) (data : EventData) : RangeState :=
  if data.shift then
    { st with slot1 := some data }
  else
    match st.slot0 with
    | some f => if f.d.label = data.d.label then ⟨none, none⟩ else ⟨some data, none⟩
    | none => ⟨some data, none⟩

/-- Source lines 207-229: the comparable-value bounds of the selection
`f0 :: rest`.  `first` and `last` are the lodash min and max by comparable
value; the lower bound is the comparable value of `first`, the upper bound
the comparable value of `last`, extended by `last.d.dx` when the model
type is Number; the upper bound is inclusive exactly when `last.d.dx`
is 0. -/
structure CompBounds where
  lower : Int
  upper : Int
  upperInclusive : Bool
deriving DecidableEq, Repr

/-- Comparable bounds of a non-empty range selection (source lines
207-229). -/
def rangeComparableBounds (getType : String) (f0 : EventData) (rest : List EventData) :
    CompBounds :=
  let first := lodashMinBy evComparable f0 rest
  let last := lodashMaxBy evComparable f0 rest
  { lower := evComparable first
    upper :=
      if getType = "Number" then evComparable last + last.d.dx else evComparable last
    upperInclusive := last.d.dx = 0 }

/-- Source lines 239-243: the raw-value bounds used to build the query:
`lower = first.d.value`, `upper = last.d.value`, extended by `last.d.dx`
when the model type is Number. -/
def rangeRawBounds (getType : String) (f0 : EventData) (rest : List EventData) :
    BsonValue × BsonValue :=
  let first := lodashMinBy evComparable f0 rest
  let last := lodashMaxBy evComparable f0 rest
  (first.d.value,
   if getType = "Number" then addDx last.d.value last.d.dx else last.d.value)

/-- Source lines 230-236: the classification sweep over `data.all`.  The
first sweep (lines 195-202) removed `selected` everywhere and added
`unselected` everywhere; this sweep re-adds `selected` and removes
`unselected` for every element whose comparable datum lies in the bounds,
so an element ends selected and undimmed exactly when
`elData >= lower && (upperInclusive ? elData <= upper : elData < upper)`. -/
def rangeClassify (lower upper : Int) (upperInclusive : Bool) (all : List ChartElem) :
    List ClassFlags :=
  all.map (fun el =>
    let elData := jsNum (getComparableValue el)
    if lower ≤ elData ∧ (if upperInclusive then elData ≤ upper else elData < upper) then
      ⟨true, false⟩
    else
      ⟨false, true⟩)

/-- Source lines 185-250: `handleRangeEvent`.  Updates the selection, and
when slot 0 is empty (falsy `firstSelected`) clears the predicate and
removes all classification; otherwise classifies `data.all` against the
comparable bounds and emits an exact-value predicate when the raw bounds
coincide (JavaScript `===`, which is value equality for numbers and
strings and reference equality for Date and ObjectID objects; the model
compares values, see the degenerate-range analysis) and a bounded range
otherwise.  Returns the new state, the classification of `data.all`, and
the refinement action. -/
def handleRangeEvent (getType : String) (st : RangeState) (data : EventData) :
    RangeState × List ClassFlags × RefineAction :=
  let st' := rangeToggle st data
  match st'.slot0 with
  | none => (st', data.all.map (fun _ => ⟨false, false⟩), RefineAction.unset)
  | some f0 =>
      let rest := st'.slot1.toList
      let cb := rangeComparableBounds getType f0 rest
      let classes := rangeClassify cb.lower cb.upper cb.upperInclusive data.all
      let rb := rangeRawBounds getType f0 rest
      let act :=
        if rb.1 = rb.2 then RefineAction.set (.exactValue rb.1)
        else RefineAction.set (.boundedRange rb.1 rb.2 cb.upperInclusive)
      (st', classes, act)

/-- Which handler an interaction is routed to. -/
inductive Handler where
  | distinct
  | range
  | noop
deriving DecidableEq, Repr

/-- Source lines 264-288: the `switch (this.model.getType())` of
`handleQueryBuilderEvent`.  Boolean falls through to String (distinct);
Number goes to distinct when the source is `unique` and to range
otherwise; ObjectID falls through to Date (range); every other type hits
the default branch, which does nothing. -/
def dispatch (getType source : String) : Handler :=
  if getType = "Boolean" then .distinct
  else if getType = "String" then .distinct
  else if getType = "Number" then
    (if source = "unique" then .distinct else .range)
  else if getType = "ObjectID" then .range
  else if getType = "Date" then .range
  else .noop

/-- Source lines 264-288: the entry point applies the routed handler to
the module instance and leaves it untouched on the default branch.  The
instance state is abstract here (`α`): the switch only chooses which
method runs on `this`. -/
def handleQueryBuilderEvent {α : Type} (getType source : String)
    (onDistinct onRange : α → α) (st : α) : α :=
  match dispatch getType source with
  | .distinct => onDistinct st
  | .range => onRange st
  | .noop => st

/-- A whole sequence of distinct-mode interactions starting from the
empty selection. -/
def runDistinct (events : List EventData) : List EventData :=
  events.foldl (fun sv data => (handleDistinctEvent sv data).1) []

/-- A click on `A` followed by a modifier-click on `B`, in range mode,
starting from the empty selection: the two-step interaction the range
scenarios describe.  The clicked DOM identities are irrelevant to range
mode; the chart elements are `allE`. -/
def rangeClickPair (getType : String) (A B : ChartElem) (allE : List ChartElem) :
    RangeState × List ClassFlags × RefineAction :=
  handleRangeEvent getType
    (handleRangeEvent getType ⟨none, none⟩ ⟨A, 0, false, allE⟩).1
    ⟨B, 1, true, allE⟩

/-- The binned Number scenario elements: bars at 20 and 40, bin width 10. -/
def bin20 : ChartElem := ⟨"20", .num 20, 10⟩

/-- The bar at 40 of the binned scenario. -/
def bin40 : ChartElem := ⟨"40", .num 40, 10⟩

/-- A bar at 30 lying strictly between the two clicked bins. -/
def bin30 : ChartElem := ⟨"30", .num 30, 10⟩

/-- A bar whose value 50 equals the extended upper bound of the binned
scenario. -/
def bin50 : ChartElem := ⟨"50", .num 50, 10⟩

/-- An element whose value is the extended upper bound 50 minus a small
epsilon (here the grid step 1). -/
def binEps : ChartElem := ⟨"49", .num 49, 10⟩

/-- The unbinned Number scenario elements: points 5 and 9, bin width 0. -/
def pt5 : ChartElem := ⟨"5", .num 5, 0⟩

/-- The point at 9 of the unbinned scenario. -/
def pt9 : ChartElem := ⟨"9", .num 9, 0⟩

/-- Two distinct ObjectIDs created in the same second: different identity
tags, equal timestamps. -/
def oidA : ChartElem := ⟨"a", .objectId 1 0, 0⟩

/-- The second ObjectID of the same-second pair. -/
def oidB : ChartElem := ⟨"b", .objectId 2 0, 0⟩

/-- The outcome (classification and refinement action) of a range event
whose resolved minimum element carries the data point `X` and whose
resolved maximum element carries `Y`: the comparable bounds are the
comparable values of `X` and `Y` with the Number bin extension on the
upper side, the raw bounds are the raw values with the same extension,
and the upper bound is inclusive exactly when `Y.dx` is 0. -/
def rangeResult (getType : String) (X Y : ChartElem) (allE : List ChartElem) :
    List ClassFlags × RefineAction :=
  let lower := jsNum (getComparableValue X)
  let upper :=
    if getType = "Number" then jsNum (getComparableValue Y) + Y.dx
    else jsNum (getComparableValue Y)
  let inc := decide (Y.dx = 0)
  let rawUpper := if getType = "Number" then addDx Y.value Y.dx else Y.value
  (rangeClassify lower upper inc allE,
   if X.value = rawUpper then RefineAction.set (.exactValue X.value)
   else RefineAction.set (.boundedRange X.value rawUpper inc))

theorem handleRangeEvent_fst (getType : String) (st : RangeState) (data : EventData) :
    (handleRangeEvent getType st data).1 = rangeToggle st data := by
  unfold handleRangeEvent
  cases h : (rangeToggle st data).slot0 <;> simp [h]

theorem rangeClickPair_eq (getType : String) (A B : ChartElem) (allE : List ChartElem) :
    rangeClickPair getType A B allE =
      handleRangeEvent getType ⟨some ⟨A, 0, false, allE⟩, none⟩ ⟨B, 1, true, allE⟩ := by
  unfold rangeClickPair
  rw [handleRangeEvent_fst]
  rfl

theorem rangeClickPair_snd_of_lt (getType : String) (A B : ChartElem)
    (allE : List ChartElem)
    (h : jsNum (getComparableValue A) < jsNum (getComparableValue B)) :
    (rangeClickPair getType A B allE).2 = rangeResult getType A B allE := by
  rw [rangeClickPair_eq]
  have h1 : ¬ jsNum (getComparableValue B) < jsNum (getComparableValue A) :=
    not_lt.mpr (le_of_lt h)
  simp only [handleRangeEvent, rangeToggle, rangeComparableBounds, rangeRawBounds,
    lodashMinBy, lodashMaxBy, evComparable, rangeResult, List.foldl,
    Option.toList, if_pos, if_neg, h, h1, if_true, if_false, Bool.false_eq_true,
    ite_false, ite_true]

theorem rangeClickPair_snd_of_gt (getType : String) (A B : ChartElem)
    (allE : List ChartElem)
    (h : jsNum (getComparableValue B) < jsNum (getComparableValue A)) :
    (rangeClickPair getType A B allE).2 = rangeResult getType B A allE := by
  rw [rangeClickPair_eq]
  have h1 : ¬ jsNum (getComparableValue A) < jsNum (getComparableValue B) :=
    not_lt.mpr (le_of_lt h)
  simp only [handleRangeEvent, rangeToggle, rangeComparableBounds, rangeRawBounds,
    lodashMinBy, lodashMaxBy, evComparable, rangeResult, List.foldl,
    Option.toList, if_pos, if_neg, h, h1, if_true, if_false, Bool.false_eq_true,
    ite_false, ite_true]

/-- C1: in range mode with a non-empty selection the predicate bounds come
from the raw domain values of the minimum and maximum selected elements,
ordered by comparable value; for a Number field the upper bound is raised
by the bin width of the maximum element and is inclusive exactly when
that bin width is 0.  Concretely, clicking the binned bars at 20 and 40
(bin width 10) emits BoundedRange(20, 50, false) and clicking the
unbinned points 5 and 9 emits BoundedRange(5, 9, true). -/
theorem range_boundary_policy :
    ((rangeClickPair "Number" bin20 bin40 [bin20, bin40]).2.2
        = .set (.boundedRange (.num 20) (.num 50) false)
      ∧ (rangeClickPair "Number" pt5 pt9 [pt5, pt9]).2.2
        = .set (.boundedRange (.num 5) (.num 9) true))
    ∧ ∀ (A B : ChartElem) (allE : List ChartElem),
        jsNum (getComparableValue A) < jsNum (getComparableValue B) →
        (rangeClickPair "Number" A B allE).2.2 =
          (if A.value = addDx B.value B.dx then
            RefineAction.set (.exactValue A.value)
          else
            RefineAction.set
              (.boundedRange A.value (addDx B.value B.dx) (decide (B.dx = 0)))) := by
  refine ⟨⟨by decide, by decide⟩, ?_⟩
  intro A B allE h
  have hp := rangeClickPair_snd_of_lt "Number" A B allE h
  have : (rangeClickPair "Number" A B allE).2.2 = (rangeResult "Number" A B allE).2 := by
    rw [hp]
  rw [this]
  simp [rangeResult]

/-- C1 witness: the general clause applied to the binned scenario. -/
theorem range_boundary_policy_witness :
    (rangeClickPair "Number" bin20 bin40 [bin20, bin40]).2.2 =
      (if bin20.value = addDx bin40.value bin40.dx then
        RefineAction.set (.exactValue bin20.value)
      else
        RefineAction.set
          (.boundedRange bin20.value (addDx bin40.value bin40.dx)
            (decide (bin40.dx = 0)))) :=
  range_boundary_policy.2 bin20 bin40 [bin20, bin40] (by decide)

/-- C2 counterexample: two ObjectID elements created in the same second
have distinct raw values but equal comparable values; the lodash min and
max then both resolve to the first element of the selection array, so the
two click orders emit different bounds, each collapsing to an exact value
at its own first click.  This refutes the claim as stated, whose only
hypothesis is that the raw values differ. -/
theorem range_swap_counterexample :
    oidA.value ≠ oidB.value
    ∧ (rangeClickPair "ObjectID" oidA oidB [oidA, oidB]).2.2
        = .set (.exactValue (.objectId 1 0))
    ∧ (rangeClickPair "ObjectID" oidB oidA [oidA, oidB]).2.2
        = .set (.exactValue (.objectId 2 0))
    ∧ (rangeClickPair "ObjectID" oidA oidB [oidA, oidB]).2.2
        ≠ (rangeClickPair "ObjectID" oidB oidA [oidA, oidB]).2.2 := by
  decide

/-- C2 amended: for two bounds whose comparable values differ (which for
Number and Date fields is exactly raw-value difference), the whole
emitted outcome of the two-click range interaction, classification and
predicate alike, is invariant under swapping the click order. -/
theorem range_swap_invariance (getType : String) (A B : ChartElem)
    (allE : List ChartElem)
    (h : jsNum (getComparableValue A) ≠ jsNum (getComparableValue B)) :
    (rangeClickPair getType A B allE).2 = (rangeClickPair getType B A allE).2 := by
  rcases lt_or_gt_of_ne h with hlt | hgt
  · rw [rangeClickPair_snd_of_lt getType A B allE hlt,
      rangeClickPair_snd_of_gt getType B A allE hlt]
  · rw [rangeClickPair_snd_of_gt getType A B allE hgt,
      rangeClickPair_snd_of_lt getType B A allE hgt]

/-- C2 witness: order invariance at the binned Number scenario. -/
theorem range_swap_invariance_witness :
    (rangeClickPair "Number" bin20 bin40 [bin20, bin40]).2
      = (rangeClickPair "Number" bin40 bin20 [bin20, bin40]).2 :=
  range_swap_invariance "Number" bin20 bin40 [bin20, bin40] (by decide)

/-- C8: the entry point routes Boolean and String to the distinct
handler, Number to the distinct handler when the source is unique and to
the range handler otherwise, and ObjectID and Date to the range
handler. -/
theorem dispatch_table {α : Type} (source : String) (onDistinct onRange : α → α)
    (st : α) :
    handleQueryBuilderEvent "Boolean" source onDistinct onRange st = onDistinct st
    ∧ handleQueryBuilderEvent "String" source onDistinct onRange st = onDistinct st
    ∧ handleQueryBuilderEvent "Number" "unique" onDistinct onRange st = onDistinct st
    ∧ (source ≠ "unique" →
        handleQueryBuilderEvent "Number" source onDistinct onRange st = onRange st)
    ∧ handleQueryBuilderEvent "ObjectID" source onDistinct onRange st = onRange st
    ∧ handleQueryBuilderEvent "Date" source onDistinct onRange st = onRange st := by
  refine ⟨rfl, rfl, rfl, ?_, rfl, rfl⟩
  intro h
  simp [handleQueryBuilderEvent, dispatch, h]

/-- C8 witness: a Number interaction with source `few` runs the range
handler. -/
theorem dispatch_table_witness :
    handleQueryBuilderEvent "Number" "few" (fun n => n + 1) (fun n => n + 2) (0 : Nat)
      = (fun n => n + 2) 0 :=
  (dispatch_table "few" (fun n => n + 1) (fun n => n + 2) 0).2.2.2.1 (by decide)

/-- C9: a field type outside the dispatch table hits the default branch,
which does nothing: the module state (selection and predicate alike) is
returned unchanged and no error is raised. -/
theorem dispatch_unknown_noop {α : Type} (getType source : String)
    (onDistinct onRange : α → α) (st : α)
    (h : getType ∉ (["Boolean", "String", "Number", "ObjectID", "Date"] : List String)) :
    handleQueryBuilderEvent getType source onDistinct onRange st = st := by
  simp only [List.mem_cons, List.not_mem_nil, or_false, not_or] at h
  obtain ⟨h1, h2, h3, h4, h5⟩ := h
  simp [handleQueryBuilderEvent, dispatch, h1, h2, h3, h4, h5]

/-- C9 witness: a Binary-typed interaction leaves the state untouched. -/
theorem dispatch_unknown_noop_witness :
    handleQueryBuilderEvent "Binary" "few" (fun n => n + 1) (fun n => n + 2) (5 : Nat)
      = 5 :=
  dispatch_unknown_noop "Binary" "few" (fun n => n + 1) (fun n => n + 2) 5 (by decide)

/-- C10: a range-mode modifier-click on an empty selection stores the
clicked element only in the second slot of the selection array, leaving a
hole in the first; emptiness is decided from the first slot alone, so the
handler clears the predicate and removes the dimming from every element
even though the array now has length 2 with the element in its second
slot. -/
theorem range_modifier_on_empty (getType : String) (d : ChartElem) (selfId : Nat)
    (allE : List ChartElem) :
    handleRangeEvent getType ⟨none, none⟩ ⟨d, selfId, true, allE⟩ =
      (⟨none, some ⟨d, selfId, true, allE⟩⟩,
       allE.map (fun _ => ⟨false, false⟩),
       RefineAction.unset) := rfl

/-- C3: in range mode, whenever the recomputed raw-value lower bound
equals the raw-value upper bound (after the Number bin extension) the
emitted predicate is an exact value of that bound; dually, the handler
never emits a bounded range whose two bounds coincide, whatever the
selection and the underlying value type. -/
theorem range_degenerate_collapse :
    (∀ (getType : String) (st : RangeState) (data : EventData) (f0 : EventData),
       (rangeToggle st data).slot0 = some f0 →
       ∀ l u : BsonValue,
         rangeRawBounds getType f0 (rangeToggle st data).slot1.toList = (l, u) →
         l = u →
         (handleRangeEvent getType st data).2.2 = .set (.exactValue l))
    ∧ (∀ (getType : String) (st : RangeState) (data : EventData) (l u : BsonValue)
         (i : Bool),
         (handleRangeEvent getType st data).2.2 = .set (.boundedRange l u i) →
         l ≠ u) := by
  constructor
  · intro t st data f0 h l u hb he
    simp only [handleRangeEvent, h]
    rw [hb]
    simp [he]
  · intro t st data l u i h
    rcases hs : (rangeToggle st data).slot0 with _ | f0
    · simp [handleRangeEvent, hs] at h
    · simp only [handleRangeEvent, hs] at h
      by_cases he : (rangeRawBounds t f0 (rangeToggle st data).slot1.toList).1
          = (rangeRawBounds t f0 (rangeToggle st data).slot1.toList).2
      · simp [he] at h
      · simp only [if_neg he, RefineAction.set.injEq,
          Predicate.boundedRange.injEq] at h
        rcases h with ⟨rfl, rfl, rfl⟩
        exact he

/-- C3 witness: a single click on the unbinned point 5 makes the raw
bounds coincide at 5 and the predicate an exact value. -/
theorem range_degenerate_collapse_witness :
    (handleRangeEvent "Number" ⟨none, none⟩ ⟨pt5, 0, false, [pt5]⟩).2.2
      = .set (.exactValue (.num 5)) :=
  range_degenerate_collapse.1 "Number" ⟨none, none⟩ ⟨pt5, 0, false, [pt5]⟩
    ⟨pt5, 0, false, [pt5]⟩ (by decide) (.num 5) (.num 5) (by decide) rfl

/-- C4 counterexample: in the binned scenario (bars at 20 and 40, bin
width 10, comparable upper bound 40 before extension and 50 after,
exclusive), the bar whose value equals the UNEXTENDED upper bound 40 is
marked selected by the classification pass, not excluded, since
40 >= 20 and 40 < 50; the claim asserts it is excluded. -/
theorem range_classification_counterexample :
    jsNum (getComparableValue bin40) = 40
    ∧ (rangeClickPair "Number" bin20 bin40 [bin20, bin30, bin40, bin50]).2.1
        = [⟨true, false⟩, ⟨true, false⟩, ⟨true, false⟩, ⟨false, true⟩] := by
  decide

/-- C4 amended: the classification marks exactly the elements whose
comparable value v satisfies v >= lower and (v <= upper when the upper
bound is inclusive, v < upper otherwise) and dims all others; for binned
Number ranges the element at the EXTENDED upper bound (the unextended
upper plus the last bin width) is excluded, an element just below the
extended upper bound is included, and the bar at the unextended upper
bound (the clicked maximum bin itself) is included. -/
theorem range_classification_policy :
    (∀ (getType : String) (st : RangeState) (data : EventData) (f0 : EventData),
       (rangeToggle st data).slot0 = some f0 →
       (handleRangeEvent getType st data).2.1 =
         (let b := rangeComparableBounds getType f0 (rangeToggle st data).slot1.toList
          data.all.map (fun el =>
            if b.lower ≤ jsNum (getComparableValue el)
                ∧ (if b.upperInclusive then jsNum (getComparableValue el) ≤ b.upper
                   else jsNum (getComparableValue el) < b.upper) then
              ⟨true, false⟩
            else
              ⟨false, true⟩)))
    ∧ (rangeClickPair "Number" bin20 bin40 [bin20, bin40, binEps, bin50]).2.1
        = [⟨true, false⟩, ⟨true, false⟩, ⟨true, false⟩, ⟨false, true⟩] := by
  constructor
  · intro t st data f0 h
    simp only [handleRangeEvent, h, rangeClassify]
  · decide

/-- C4 witness: the general classification clause evaluated at the binned
scenario with the extended upper bound 50, an element at 49 and the bar
at 40. -/
theorem range_classification_policy_witness :
    (handleRangeEvent "Number"
        ⟨some ⟨bin20, 0, false, [bin20, bin40, binEps, bin50]⟩, none⟩
        ⟨bin40, 1, true, [bin20, bin40, binEps, bin50]⟩).2.1
      = [⟨true, false⟩, ⟨true, false⟩, ⟨true, false⟩, ⟨false, true⟩] := by
  rw [range_classification_policy.1 "Number"
    ⟨some ⟨bin20, 0, false, [bin20, bin40, binEps, bin50]⟩, none⟩
    ⟨bin40, 1, true, [bin20, bin40, binEps, bin50]⟩
    ⟨bin20, 0, false, [bin20, bin40, binEps, bin50]⟩ rfl]
  decide

theorem distinctToggle_nodup (sv : List EventData) (data : EventData)
    (h : (distinctLabels sv).Nodup) :
    (distinctLabels (distinctToggle sv data)).Nodup := by
  unfold distinctToggle
  cases hd : data.shift
  · simp only [hd, Bool.not_false, if_true]
    rcases sv with _ | ⟨e, _ | ⟨f, rest⟩⟩
    · simp [distinctLabels]
    · by_cases hself : e.self = data.self <;> simp [distinctLabels, hself]
    · simp [distinctLabels]
  · simp only [hd, Bool.not_true, Bool.false_eq_true, if_false]
    by_cases hm : data.d.label ∈ distinctLabels sv
    · rw [if_pos hm]
      exact List.Nodup.sublist ((List.filter_sublist sv).map _) h
    · rw [if_neg hm]
      have : distinctLabels (sv ++ [data])
          = distinctLabels sv ++ [data.d.label] := by
        simp [distinctLabels]
      rw [this]
      refine List.Nodup.append h (List.nodup_singleton _) ?_
      intro x hx hx2
      simp only [List.mem_singleton] at hx2
      subst hx2
      exact hm hx

theorem runDistinct_from_nodup (events : List EventData) :
    ∀ sv : List EventData, (distinctLabels sv).Nodup →
      (distinctLabels
        (events.foldl (fun sv data => (handleDistinctEvent sv data).1) sv)).Nodup := by
  induction events with
  | nil => intro sv h; simpa using h
  | cons e es ih =>
      intro sv h
      exact ih ((handleDistinctEvent sv e).1) (distinctToggle_nodup sv e h)

/-- C5: a distinct-mode modifier-click appends a label that is absent
from the selection and removes every entry carrying an already-present
label; consequently the selection built by any sequence of distinct-mode
interactions from the empty selection never holds two entries with the
same label. -/
theorem distinct_modifier_nodup :
    (∀ (sv : List EventData) (data : EventData), data.shift = true →
       (data.d.label ∉ distinctLabels sv →
          (handleDistinctEvent sv data).1 = sv ++ [data])
       ∧ (data.d.label ∈ distinctLabels sv →
          (handleDistinctEvent sv data).1
            = sv.filter (fun e => e.d.label != data.d.label)))
    ∧ ∀ events : List EventData, (distinctLabels (runDistinct events)).Nodup := by
  constructor
  · intro sv data hs
    constructor
    · intro hm
      simp [handleDistinctEvent, distinctToggle, hs, hm]
    · intro hm
      simp [handleDistinctEvent, distinctToggle, hs, hm]
  · intro events
    simpa [runDistinct] using
      runDistinct_from_nodup events [] (by simp [distinctLabels])

/-- C5 witness: a modifier-click on the absent label 9 appends it. -/
theorem distinct_modifier_nodup_witness :
    (handleDistinctEvent [⟨pt5, 0, false, []⟩] ⟨pt9, 1, true, []⟩).1
      = [⟨pt5, 0, false, []⟩] ++ [⟨pt9, 1, true, []⟩] :=
  (distinct_modifier_nodup.1 [⟨pt5, 0, false, []⟩] ⟨pt9, 1, true, []⟩ rfl).1
    (by decide)

/-- C6: a distinct-mode click without modifier clears both selection and
predicate when the current selection is exactly the clicked element
(compared by DOM identity), and otherwise replaces the selection with the
clicked element alone. -/
theorem distinct_plain_click (sv : List EventData) (data : EventData)
    (hs : data.shift = false) :
    ((∃ e, sv = [e] ∧ e.self = data.self) →
       handleDistinctEvent sv data = ([], RefineAction.unset))
    ∧ ((¬ ∃ e, sv = [e] ∧ e.self = data.self) →
       (handleDistinctEvent sv data).1 = [data]) := by
  constructor
  · rintro ⟨e, rfl, hself⟩
    simp [handleDistinctEvent, distinctToggle, distinctRefine, hs, hself]
  · intro hne
    rcases sv with _ | ⟨e, _ | ⟨f, rest⟩⟩
    · simp [handleDistinctEvent, distinctToggle, hs]
    · have hns : ¬ e.self = data.self := fun hself => hne ⟨e, rfl, hself⟩
      simp [handleDistinctEvent, distinctToggle, hs, hns]
    · simp [handleDistinctEvent, distinctToggle, hs]

/-- C6 witness: reclicking the sole selected element clears selection and
predicate. -/
theorem distinct_plain_click_witness :
    handleDistinctEvent [⟨pt5, 0, false, []⟩] ⟨pt5, 0, false, []⟩
      = ([], RefineAction.unset) :=
  (distinct_plain_click [⟨pt5, 0, false, []⟩] ⟨pt5, 0, false, []⟩ rfl).1
    ⟨⟨pt5, 0, false, []⟩, rfl, rfl⟩

theorem distinctRefine_spec (l : List EventData) :
    (l = [] → distinctRefine l = RefineAction.unset)
    ∧ (∀ e, l = [e] → distinctRefine l = RefineAction.set (.exactValue e.d.value))
    ∧ (2 ≤ l.length →
        distinctRefine l
          = RefineAction.set (.valueSet (l.map (fun e => e.d.value)))) := by
  refine ⟨?_, ?_, ?_⟩
  · rintro rfl; rfl
  · rintro e rfl; rfl
  · intro h
    rcases l with _ | ⟨a, _ | ⟨b, rest⟩⟩
    · simp at h
    · simp at h
    · rfl

/-- C7: after every distinct-mode interaction the emitted action is
determined by the size of the resulting selection: empty clears the
predicate, a single entry emits an exact value of its value, and more
than one entry emits the value set of all selected entries. -/
theorem distinct_predicate_arity (sv : List EventData) (data : EventData) :
    ((handleDistinctEvent sv data).1 = [] →
       (handleDistinctEvent sv data).2 = RefineAction.unset)
    ∧ (∀ e, (handleDistinctEvent sv data).1 = [e] →
       (handleDistinctEvent sv data).2 = RefineAction.set (.exactValue e.d.value))
    ∧ (2 ≤ (handleDistinctEvent sv data).1.length →
       (handleDistinctEvent sv data).2 =
         RefineAction.set
           (.valueSet ((handleDistinctEvent sv data).1.map (fun e => e.d.value)))) :=
  distinctRefine_spec (distinctToggle sv data)

/-- C7 witness: a first click emits the exact value of the clicked
element. -/
theorem distinct_predicate_arity_witness :
    (handleDistinctEvent [] ⟨pt5, 0, false, []⟩).2
      = RefineAction.set (.exactValue (.num 5)) :=
  (distinct_predicate_arity [] ⟨pt5, 0, false, []⟩).2.1 ⟨pt5, 0, false, []⟩ rfl

end Minicharts
